import Mathlib

set_option linter.unnecessarySeqFocus false

/-!
Verification of the ratio analysis and upload-recommendation engine of
InventoryPacer (`src/utils/ratio_calculator.py`, class `RatioCalculator`).

Modelling conventions:
- Python `dict`s are insertion-ordered association lists with unique keys
  (`List (String × _)`); `d.get(k, default)` is `lookupD`, `k in d` is
  `containsKey`.
- Python `int` is `Int`; Python `float` arithmetic is idealised as `Rat`.
- Python built-in `round` rounds half to even (banker's rounding); the
  one-argument form returns an `Int`, the two-argument form a `Rat`.
- `calculate_required_uploads` returns either the error dict
  `{"error": "No products available for analysis"}` or a dict mapping
  category names to entry dicts; both shapes are a single Python dict, so
  the result is a `List (String × AnalysisValue)` where a value is either
  an error message string or an entry record.
- `get_recommendations` / `is_ratio_balanced` crash (AttributeError /
  TypeError) when a value is the error string; this is modelled by
  returning `Option` results, `none` meaning the call raises.
-/

namespace InventoryPacer

/-- A Python dict `Dict[str, int]` of per-category product counts. -/
abbrev Counts := List (String × Int)

/-- A Python dict `Dict[str, float]` of per-category target percentages. -/
abbrev Targets := List (String × Rat)

/-- Dict lookup `d[k]` as an option (first binding wins). -/
def lookupOpt {α : Type} : List (String × α) → String → Option α
  | [], _ => none
  | (k', v) :: l, k => if k = k' then some v else lookupOpt l k

/-- `d.get(k, default)` on an association list. -/
def lookupD {α : Type} (l : List (String × α)) (k : String) (d : α) : α :=
  (lookupOpt l k).getD d

/-- Python `k in d` on an association list. -/
def containsKey {α : Type} (l : List (String × α)) (k : String) : Bool :=
  (lookupOpt l k).isSome

/-- `sum(d.values())` for an association list. -/
def sumValues (c : Counts) : Int :=
  (c.map Prod.snd).sum

/-- Python `round(x)`: nearest integer, ties to even (banker's rounding).
Stated via the floor `n` of `x`: below the midpoint round down, above it
round up, at the midpoint pick the even neighbour. -/
def round_half_even (x : Rat) : Int :=
  let n : Int := ⌊x⌋
  if x < (n : Rat) + 1/2 then n
  else if (n : Rat) + 1/2 < x then n + 1
  else if n % 2 = 0 then n else n + 1

/-- Python `round(x, ndigits)`: round to `ndigits` decimal places, ties to
even (idealised over `Rat`). -/
def py_round (ndigits : Nat) (x : Rat) : Rat :=
  (round_half_even (x * 10 ^ ndigits) : Rat) / 10 ^ ndigits

/-- One value of the analysis dict built by `calculate_required_uploads`:
the per-category entry dict
`{'current', 'required', 'next_upload_count', 'current_percent', 'target_percent'}`. -/
structure RatioEntry where
  current : Int
  required : Rat
  next_upload_count : Int
  current_percent : Rat
  target_percent : Rat
deriving Repr, DecidableEq

/-- A value of the dict returned by `calculate_required_uploads`: either the
error message string (under key `"error"`) or a per-category entry dict. -/
inductive AnalysisValue where
  | errMsg (msg : String)
  | entry (e : RatioEntry)
deriving Repr, DecidableEq

/-- The dict returned by `calculate_required_uploads`. -/
abbrev Analysis := List (String × AnalysisValue)

/-- The `current_percentages` dict built by the first loop of
`calculate_required_uploads`: for each `(product_type, count)` of
`current_counts` with `product_type in target_ratios`, the value
`(count / total_current) * 100`. -/
def current_percentages (target_ratios : Targets) (current_counts : Counts)
    (total_current : Int) : List (String × Rat) :=
  current_counts.filterMap (fun p =>
    if containsKey target_ratios p.1 then
      some (p.1, ((p.2 : Rat) / (total_current : Rat)) * 100)
    else none)

/-- `required_count = (target_percent / 100) * total_current`. -/
def required_countOf (target_percent : Rat) (total_current : Int) : Rat :=
  (target_percent / 100) * (total_current : Rat)

/-- `diff = required_count - current_counts.get(product_type, 0)`. -/
def diffOf (current_counts : Counts) (product_type : String)
    (target_percent : Rat) : Rat :=
  required_countOf target_percent (sumValues current_counts)
    - (lookupD current_counts product_type 0 : Int)

/-- The entry dict emitted for a category with positive `diff`. -/
def analysis_entry (current_counts : Counts)
    (current_pcts : List (String × Rat)) (product_type : String)
    (target_percent : Rat) : RatioEntry :=
  { current := lookupD current_counts product_type 0
    required := py_round 2 (required_countOf target_percent (sumValues current_counts))
    next_upload_count := round_half_even (diffOf current_counts product_type target_percent)
    current_percent := py_round 1 (lookupD current_pcts product_type 0)
    target_percent := target_percent }

/-- `RatioCalculator.calculate_required_uploads(self, current_counts)`:
returns the error dict when the total is zero, otherwise the dict of
entries for exactly the target categories with positive `diff`, in the key
order of `target_ratios`. -/
def calculate_required_uploads (target_ratios : Targets)
    (current_counts : Counts) : Analysis :=
  let total_current := sumValues current_counts
  if total_current = 0 then
    [("error", AnalysisValue.errMsg "No products available for analysis")]
  else
    let current_pcts := current_percentages target_ratios current_counts total_current
    target_ratios.filterMap (fun p =>
      if 0 < diffOf current_counts p.1 p.2 then
        some (p.1, AnalysisValue.entry
          (analysis_entry current_counts current_pcts p.1 p.2))
      else none)

/-- The f-string
`f"Upload {upload_count} more {product_type} (currently {data['current']}, need total {data['required']:.0f})"`
(`:.0f` rounds to the nearest integer, ties to even). -/
def recommendation_line (product_type : String) (data : RatioEntry) : String :=
  "Upload " ++ toString data.next_upload_count ++ " more " ++ product_type ++
    " (currently " ++ toString data.current ++ ", need total " ++
    toString (round_half_even data.required) ++ ")"

/-- `RatioCalculator.get_recommendations(self, analysis)`: one line per
entry with `next_upload_count > 0`, in dict order; `none` models the
AttributeError raised if a value is the error string. -/
def get_recommendations : Analysis → Option (List String)
  | [] => some []
  | (_, AnalysisValue.errMsg _) :: _ => none
  | (product_type, AnalysisValue.entry data) :: rest =>
    match get_recommendations rest with
    | none => none
    | some recs =>
      if 0 < data.next_upload_count then
        some (recommendation_line product_type data :: recs)
      else
        some recs

/-- The default value of the `tolerance` parameter of `is_ratio_balanced`. -/
def default_tolerance : Rat := 5

/-- `RatioCalculator.is_ratio_balanced(self, analysis, tolerance=5.0)`:
`some false` as soon as an entry has `|current_percent - target_percent| >
tolerance`, `some true` if no entry does; `none` models the TypeError
raised if the error string is reached. -/
def is_ratio_balanced : Analysis → Rat → Option Bool
  | [], _ => some true
  | (_, AnalysisValue.errMsg _) :: _, _ => none
  | (_, AnalysisValue.entry data) :: rest, tolerance =>
    if tolerance < |data.current_percent - data.target_percent| then
      some false
    else
      is_ratio_balanced rest tolerance

/-- The `RatioCalculator` object: its only data attribute is
`self.target_ratios` (the logger is pure I/O and carries no data the engine
reads). -/
structure RatioCalculator where
  target_ratios : Targets
deriving Repr, DecidableEq

/-- A call of the method `calculate_required_uploads` as a state
transformer on the object and the argument: the body only reads
`self.target_ratios` and `current_counts` (no attribute assignment, no dict
mutation), so the call returns the result together with the unchanged
object and argument. -/
def RatioCalculator.call_calculate_required_uploads (rc : RatioCalculator)
    (current_counts : Counts) : Analysis × RatioCalculator × Counts :=
  (calculate_required_uploads rc.target_ratios current_counts, rc, current_counts)

/-- Rounding to the nearest integer with ties away from zero, as the spec
words C5's claimed rounding mode (spec-side definition, for comparison). -/
def round_ties_away (x : Rat) : Int :=
  if 0 ≤ x then ⌊x + 1/2⌋ else ⌈x - 1/2⌉

/-- A success dict: every value is an entry record. -/
def asAnalysis (es : List (String × RatioEntry)) : Analysis :=
  es.map (fun p => (p.1, AnalysisValue.entry p.2))

/-- The per-pair formatting step of `get_recommendations`: a line for an
entry with positive `next_upload_count`, nothing otherwise. -/
def recommendation_of (p : String × AnalysisValue) : Option String :=
  match p.2 with
  | AnalysisValue.errMsg _ => none
  | AnalysisValue.entry data =>
    if 0 < data.next_upload_count then
      some (recommendation_line p.1 data)
    else none

/-! ## Supporting lemmas -/

theorem round_half_even_abs_le (x : Rat) :
    |(round_half_even x : Rat) - x| ≤ 1/2 := by
  have h1 : ((⌊x⌋ : Int) : Rat) ≤ x := Int.floor_le x
  have h2 : x < ((⌊x⌋ : Int) : Rat) + 1 := Int.lt_floor_add_one x
  simp only [round_half_even]
  split_ifs with ha hb hc
  · rw [abs_le]; constructor <;> linarith
  · rw [abs_le]; push_cast; constructor <;> linarith
  · rw [abs_le]; constructor <;> linarith
  · rw [abs_le]; push_cast; constructor <;> linarith

theorem round_half_even_tie_even (x : Rat)
    (h : |(round_half_even x : Rat) - x| = 1/2) :
    round_half_even x % 2 = 0 := by
  have h1 : ((⌊x⌋ : Int) : Rat) ≤ x := Int.floor_le x
  have h2 : x < ((⌊x⌋ : Int) : Rat) + 1 := Int.lt_floor_add_one x
  simp only [round_half_even] at h ⊢
  split_ifs at h ⊢ with ha hb hc
  · exfalso
    rw [abs_sub_comm, abs_of_nonneg (by linarith)] at h
    linarith
  · exfalso
    rw [abs_of_nonneg (by push_cast; linarith)] at h
    push_cast at h
    linarith
  · exact hc
  · omega

theorem round_half_even_nonneg (x : Rat) (h : 0 < x) :
    0 ≤ round_half_even x := by
  have h1 : (0 : Int) ≤ ⌊x⌋ := Int.floor_nonneg.2 h.le
  simp only [round_half_even]
  split_ifs <;> omega

theorem lookupOpt_eq_some_of_mem {α : Type} {l : List (String × α)}
    {k : String} {v : α} (hnd : (l.map Prod.fst).Nodup) (hm : (k, v) ∈ l) :
    lookupOpt l k = some v := by
  induction l with
  | nil => cases hm
  | cons p l ih =>
    obtain ⟨k', v'⟩ := p
    simp only [List.map_cons, List.nodup_cons] at hnd
    rcases List.mem_cons.1 hm with h | h
    · obtain ⟨rfl, rfl⟩ := Prod.mk.inj h
      simp [lookupOpt]
    · have hne : k ≠ k' := by
        rintro rfl
        exact hnd.1 (List.mem_map.2 ⟨(k, v), h, rfl⟩)
      simp only [lookupOpt, if_neg hne]
      exact ih hnd.2 h

theorem mem_of_lookupOpt_eq_some {α : Type} {l : List (String × α)}
    {k : String} {v : α} (h : lookupOpt l k = some v) : (k, v) ∈ l := by
  induction l with
  | nil => simp [lookupOpt] at h
  | cons p l ih =>
    obtain ⟨k', v'⟩ := p
    by_cases hk : k = k'
    · subst hk
      simp only [lookupOpt, if_true, eq_self_iff_true, Option.some.injEq] at h
      rw [← h]
      exact List.mem_cons_self _ _
    · simp only [lookupOpt, if_neg hk] at h
      exact List.mem_cons_of_mem _ (ih h)

theorem containsKey_of_mem {α : Type} {l : List (String × α)}
    {k : String} {v : α} (hm : (k, v) ∈ l) : containsKey l k = true := by
  induction l with
  | nil => cases hm
  | cons p l ih =>
    obtain ⟨k', v'⟩ := p
    by_cases hk : k = k'
    · simp [containsKey, lookupOpt, hk]
    · rcases List.mem_cons.1 hm with h | h
      · exact absurd (congrArg Prod.fst h) hk
      · simpa [containsKey, lookupOpt, hk] using ih h

theorem calculate_required_uploads_eq_filterMap {t : Targets} {c : Counts}
    (h : sumValues c ≠ 0) :
    calculate_required_uploads t c = t.filterMap (fun p =>
      if 0 < diffOf c p.1 p.2 then
        some (p.1, AnalysisValue.entry
          (analysis_entry c (current_percentages t c (sumValues c)) p.1 p.2))
      else none) := by
  simp [calculate_required_uploads, h]

theorem mem_calculate_required_uploads {t : Targets} {c : Counts}
    (h : sumValues c ≠ 0) {k : String} {v : AnalysisValue} :
    (k, v) ∈ calculate_required_uploads t c ↔
      ∃ tp, (k, tp) ∈ t ∧ 0 < diffOf c k tp ∧
        v = AnalysisValue.entry
          (analysis_entry c (current_percentages t c (sumValues c)) k tp) := by
  rw [calculate_required_uploads_eq_filterMap h, List.mem_filterMap]
  constructor
  · rintro ⟨⟨k', tp⟩, hmem, hf⟩
    by_cases hd : 0 < diffOf c k' tp
    · simp only [if_pos hd, Option.some.injEq, Prod.mk.injEq] at hf
      obtain ⟨rfl, rfl⟩ := hf
      exact ⟨tp, hmem, hd, rfl⟩
    · simp [if_neg hd] at hf
  · rintro ⟨tp, hmem, hd, rfl⟩
    exact ⟨(k, tp), hmem, by simp [if_pos hd]⟩

theorem lookupD_current_percentages (t : Targets) (c : Counts) (total : Int)
    (k : String) (hk : containsKey t k = true) :
    lookupD (current_percentages t c total) k 0
      = ((lookupD c k 0 : Int) : Rat) / (total : Rat) * 100 := by
  induction c with
  | nil => simp [current_percentages, lookupD, lookupOpt]
  | cons p c ih =>
    obtain ⟨k', n⟩ := p
    by_cases hkk : k = k'
    · subst hkk
      simp [current_percentages, List.filterMap_cons, hk, lookupD, lookupOpt]
    · by_cases hk' : containsKey t k' = true
      · simpa [current_percentages, List.filterMap_cons, hk', lookupD, lookupOpt,
          hkk] using ih
      · simpa [current_percentages, List.filterMap_cons, hk', lookupD, lookupOpt,
          hkk] using ih

theorem calculate_required_uploads_success {t : Targets} {c : Counts}
    (h : sumValues c ≠ 0) :
    ∀ p ∈ calculate_required_uploads t c, ∃ e, p.2 = AnalysisValue.entry e := by
  rintro ⟨k, v⟩ hp
  obtain ⟨tp, -, -, rfl⟩ := (mem_calculate_required_uploads h).1 hp
  exact ⟨_, rfl⟩

theorem keys_calculate_required_uploads_subset {t : Targets} {c : Counts}
    (h : sumValues c ≠ 0) {k : String}
    (hk : k ∈ (calculate_required_uploads t c).map Prod.fst) :
    k ∈ t.map Prod.fst := by
  obtain ⟨⟨k', v⟩, hmem, rfl⟩ := List.mem_map.1 hk
  obtain ⟨tp, hmem', -, -⟩ := (mem_calculate_required_uploads h).1 hmem
  exact List.mem_map.2 ⟨(k', tp), hmem', rfl⟩

theorem keys_filterMap_shortfalls (c : Counts) (pcts : List (String × Rat))
    (t : Targets) :
    (t.filterMap (fun p =>
        if 0 < diffOf c p.1 p.2 then
          some (p.1, AnalysisValue.entry (analysis_entry c pcts p.1 p.2))
        else none)).map Prod.fst
      = (t.filter fun p => decide (0 < diffOf c p.1 p.2)).map Prod.fst := by
  induction t with
  | nil => rfl
  | cons p t ih =>
    by_cases hd : 0 < diffOf c p.1 p.2
    · simpa [List.filterMap_cons, List.filter_cons, hd] using ih
    · simpa [List.filterMap_cons, List.filter_cons, hd] using ih

theorem keys_calculate_required_uploads {t : Targets} {c : Counts}
    (h : sumValues c ≠ 0) :
    (calculate_required_uploads t c).map Prod.fst
      = (t.filter fun p => decide (0 < diffOf c p.1 p.2)).map Prod.fst := by
  rw [calculate_required_uploads_eq_filterMap h]
  exact keys_filterMap_shortfalls c _ t

theorem get_recommendations_of_success {a : Analysis}
    (h : ∀ p ∈ a, ∃ e, p.2 = AnalysisValue.entry e) :
    get_recommendations a = some (a.filterMap recommendation_of) := by
  induction a with
  | nil => rfl
  | cons p rest ih =>
    obtain ⟨k, v⟩ := p
    obtain ⟨e, he⟩ := h (k, v) (List.mem_cons_self _ _)
    subst he
    have ih' := ih (fun q hq => h q (List.mem_cons_of_mem _ hq))
    by_cases hu : 0 < e.next_upload_count
    · simp [get_recommendations, ih', List.filterMap_cons, recommendation_of, hu]
    · simp [get_recommendations, ih', List.filterMap_cons, recommendation_of, hu]

theorem is_ratio_balanced_asAnalysis (es : List (String × RatioEntry))
    (tol : Rat) :
    is_ratio_balanced (asAnalysis es) tol
      = some (es.all fun p =>
          decide (|p.2.current_percent - p.2.target_percent| ≤ tol)) := by
  induction es with
  | nil => rfl
  | cons p rest ih =>
    by_cases hp : tol < |p.2.current_percent - p.2.target_percent|
    · simp [asAnalysis, is_ratio_balanced, hp, not_le.2 hp]
    · simp only [asAnalysis, List.map_cons, is_ratio_balanced, if_neg hp]
      simpa [not_lt.1 hp] using ih

theorem sumValues_append_zero (c : Counts) (k : String) :
    sumValues (c ++ [(k, 0)]) = sumValues c := by
  simp [sumValues]

theorem lookupD_append_default {α : Type} (l : List (String × α)) (k k' : String)
    (d : α) : lookupD (l ++ [(k', d)]) k d = lookupD l k d := by
  induction l with
  | nil => by_cases hk : k = k' <;> simp [lookupD, lookupOpt, hk]
  | cons p l ih =>
    obtain ⟨k'', v⟩ := p
    by_cases hk : k = k''
    · simp [lookupD, lookupOpt, hk]
    · simp only [List.cons_append, lookupD, lookupOpt, if_neg hk]
      exact ih

theorem current_percentages_append_zero (t : Targets) (c : Counts)
    (total : Int) (k : String) (key : String) :
    lookupD (current_percentages t (c ++ [(k, 0)]) total) key 0
      = lookupD (current_percentages t c total) key 0 := by
  by_cases hk : containsKey t k = true
  · have : current_percentages t (c ++ [(k, 0)]) total
        = current_percentages t c total ++ [(k, ((0 : Int) : Rat) / (total : Rat) * 100)] := by
      simp [current_percentages, List.filterMap_append, List.filterMap_cons, hk]
    rw [this]
    have hz : ((0 : Int) : Rat) / (total : Rat) * 100 = 0 := by simp
    rw [hz]
    exact lookupD_append_default _ key k 0
  · have : current_percentages t (c ++ [(k, 0)]) total
        = current_percentages t c total := by
      simp [current_percentages, List.filterMap_append, List.filterMap_cons, hk]
    rw [this]

theorem diffOf_append_zero (c : Counts) (k : String) (key : String)
    (tp : Rat) : diffOf (c ++ [(k, 0)]) key tp = diffOf c key tp := by
  simp only [diffOf, sumValues_append_zero, lookupD_append_default]

theorem py_round_abs_le (n : Nat) (x : Rat) :
    |py_round n x - x| ≤ 1 / (2 * 10 ^ n) := by
  have h := round_half_even_abs_le (x * 10 ^ n)
  have h10 : (0 : Rat) < 10 ^ n := by positivity
  have heq : py_round n x - x
      = ((round_half_even (x * 10 ^ n) : Rat) - x * 10 ^ n) / 10 ^ n := by
    field_simp [py_round]
    ring
  rw [heq, abs_div, abs_of_pos h10,
    show (1 : Rat) / (2 * 10 ^ n) = (1/2) / 10 ^ n by ring]
  exact (div_le_div_iff_of_pos_right h10).2 h

theorem py_round_scaled_int (n : Nat) (x : Rat) :
    ∃ m : Int, py_round n x = (m : Rat) / 10 ^ n :=
  ⟨round_half_even (x * 10 ^ n), rfl⟩

/-! ## Claim theorems -/

/-- C1 (counterexample): the claim that every returned entry has
`upload_count ≥ 1` is false: with targets `{a: 2, b: 98}` and counts
`{a: 0, b: 10}` the total is 10 > 0, category `a` has
`diff = 0.2 > 0`, and the emitted entry has `next_upload_count =
round(0.2) = 0 < 1`. -/
theorem C1_counterexample :
    ¬ (∀ (k : String) (e : RatioEntry),
        (k, AnalysisValue.entry e) ∈ calculate_required_uploads
          [("a", 2), ("b", 98)] [("a", 0), ("b", 10)] →
        1 ≤ e.next_upload_count) := by
  intro hclaim
  have hmem : ("a", AnalysisValue.entry
      { current := 0, required := 1/5, next_upload_count := 0,
        current_percent := 0, target_percent := 2 })
      ∈ calculate_required_uploads [("a", 2), ("b", 98)] [("a", 0), ("b", 10)] := by
    norm_num [calculate_required_uploads, current_percentages, sumValues,
      lookupD, lookupOpt, containsKey, diffOf, required_countOf, analysis_entry,
      py_round, round_half_even, List.filterMap_cons]
  have := hclaim _ _ hmem
  norm_num at this

/-- C1 (amended): for total > 0, every returned entry has
`next_upload_count ≥ 0` (not `≥ 1`: the rounded difference can be 0 when
`0 < diff < 1/2` or at the tie `diff = 1/2`), and its unrounded
`required_count` is strictly greater than the category's current count. -/
theorem C1_entries_positive_shortfall (t : Targets) (c : Counts)
    (h : 0 < sumValues c) (k : String) (e : RatioEntry)
    (hmem : (k, AnalysisValue.entry e) ∈ calculate_required_uploads t c) :
    0 ≤ e.next_upload_count ∧
      ∃ tp, (k, tp) ∈ t ∧ (e.current : Rat) < required_countOf tp (sumValues c) := by
  obtain ⟨tp, hmem', hd, he⟩ := (mem_calculate_required_uploads h.ne').1 hmem
  have he' := AnalysisValue.entry.inj he
  subst he'
  refine ⟨round_half_even_nonneg _ hd, tp, hmem', ?_⟩
  unfold diffOf at hd
  simp only [analysis_entry]
  linarith

theorem C1_witness :
    0 ≤ ({ current := 1, required := 2, next_upload_count := 1,
           current_percent := 25, target_percent := 50 } : RatioEntry).next_upload_count ∧
      ∃ tp, ("a", tp) ∈ ([("a", 50), ("b", 50)] : Targets) ∧
        (({ current := 1, required := 2, next_upload_count := 1,
            current_percent := 25, target_percent := 50 } : RatioEntry).current : Rat)
          < required_countOf tp (sumValues [("a", 1), ("b", 3)]) :=
  C1_entries_positive_shortfall [("a", 50), ("b", 50)] [("a", 1), ("b", 3)]
    (by norm_num [sumValues]) "a" _
    (by norm_num [calculate_required_uploads, current_percentages, sumValues,
      lookupD, lookupOpt, containsKey, diffOf, required_countOf, analysis_entry,
      py_round, round_half_even, List.filterMap_cons])

/-- C2: whenever the counts sum to zero (the empty dict included),
`calculate_required_uploads` returns exactly the error dict
`{"error": "No products available for analysis"}`, which is in particular
not an empty success dict. -/
theorem C2_zero_total_error (t : Targets) (c : Counts)
    (h : sumValues c = 0) :
    calculate_required_uploads t c
        = [("error", AnalysisValue.errMsg "No products available for analysis")]
      ∧ calculate_required_uploads t c ≠ [] := by
  have heq : calculate_required_uploads t c
      = [("error", AnalysisValue.errMsg "No products available for analysis")] := by
    simp [calculate_required_uploads, h]
  exact ⟨heq, heq ▸ (by simp)⟩

theorem C2_witness :
    calculate_required_uploads [("rings", 40)] []
        = [("error", AnalysisValue.errMsg "No products available for analysis")]
      ∧ calculate_required_uploads [("rings", 40)] [] ≠ [] :=
  C2_zero_total_error [("rings", 40)] [] (by norm_num [sumValues])

/-- C3: for total > 0, a category configured in `target_ratios` (with
target ratio `r`) appears as a key of the result if and only if its
`diff = required_count - current_count` is strictly positive; categories
with `diff ≤ 0` are omitted. -/
theorem C3_keys_iff_positive_diff (t : Targets) (c : Counts)
    (h : 0 < sumValues c) (hnd : (t.map Prod.fst).Nodup) (k : String) (r : Rat)
    (hl : lookupOpt t k = some r) :
    k ∈ (calculate_required_uploads t c).map Prod.fst ↔ 0 < diffOf c k r := by
  constructor
  · intro hk
    obtain ⟨⟨k', v⟩, hmem, hfst⟩ := List.mem_map.1 hk
    subst hfst
    obtain ⟨tp, hmem', hd, -⟩ := (mem_calculate_required_uploads h.ne').1 hmem
    have hlk := lookupOpt_eq_some_of_mem hnd hmem'
    rw [hl] at hlk
    rw [Option.some.inj hlk]
    exact hd
  · intro hd
    have hmem : (k, r) ∈ t := mem_of_lookupOpt_eq_some hl
    have : (k, AnalysisValue.entry
        (analysis_entry c (current_percentages t c (sumValues c)) k r))
        ∈ calculate_required_uploads t c :=
      (mem_calculate_required_uploads h.ne').2 ⟨r, hmem, hd, rfl⟩
    exact List.mem_map.2 ⟨_, this, rfl⟩

theorem C3_witness :
    ("a" ∈ (calculate_required_uploads [("a", 50), ("b", 50)]
        [("a", 1), ("b", 3)]).map Prod.fst ↔
      0 < diffOf [("a", 1), ("b", 3)] "a" 50) :=
  C3_keys_iff_positive_diff [("a", 50), ("b", 50)] [("a", 1), ("b", 3)]
    (by norm_num [sumValues]) (by simp) "a" 50 (by norm_num [lookupOpt])

/-- C4: on a successful (error-free) analysis dict, `is_ratio_balanced`
returns `false` exactly when some entry has
`|current_percent - target_percent| > tolerance` and `true` exactly when
every entry is within tolerance; the empty dict is balanced, and the
default tolerance is 5.0. -/
theorem C4_is_ratio_balanced_spec (es : List (String × RatioEntry)) (tol : Rat) :
    (is_ratio_balanced (asAnalysis es) tol = some false ↔
      ∃ p ∈ es, tol < |p.2.current_percent - p.2.target_percent|)
    ∧ (is_ratio_balanced (asAnalysis es) tol = some true ↔
      ∀ p ∈ es, |p.2.current_percent - p.2.target_percent| ≤ tol)
    ∧ is_ratio_balanced ([] : Analysis) tol = some true
    ∧ default_tolerance = 5 := by
  refine ⟨?_, ?_, rfl, rfl⟩
  · rw [is_ratio_balanced_asAnalysis]
    simp [List.all_eq_false, not_le]
  · rw [is_ratio_balanced_asAnalysis]
    simp [List.all_eq_true]

/-- C5 (counterexample): the claim that `upload_count` rounds ties away
from zero is false: with targets `{a: 25, b: 75}` and counts
`{a: 0, b: 10}`, category `a` has `diff = 2.5`; ties-away-from-zero gives
3, but the code (Python banker's rounding) emits `next_upload_count = 2`. -/
theorem C5_counterexample :
    ("a", AnalysisValue.entry
        { current := 0, required := 5/2, next_upload_count := 2,
          current_percent := 0, target_percent := 25 })
      ∈ calculate_required_uploads [("a", 25), ("b", 75)] [("a", 0), ("b", 10)]
    ∧ round_ties_away (diffOf [("a", 0), ("b", 10)] "a" 25) = 3
    ∧ (2 : Int) ≠ 3 := by
  refine ⟨?_, ?_, by decide⟩
  · norm_num [calculate_required_uploads, current_percentages, sumValues,
      lookupD, lookupOpt, containsKey, diffOf, required_countOf, analysis_entry,
      py_round, round_half_even, List.filterMap_cons]
  · norm_num [round_ties_away, diffOf, required_countOf, sumValues, lookupD,
      lookupOpt]

/-- C5 (amended): for total > 0 and a target category with positive diff,
the emitted entry has `next_upload_count` equal to `diff` rounded to the
nearest integer with ties to even (banker's rounding, Python `round`),
`required` equal to `required_count` rounded to 2 decimal places,
`current_percent` equal to the current percentage rounded to 1 decimal
place, `target_percent` passed through unrounded, and `current` the raw
count. -/
theorem C5_rounding_of_entry_fields (t : Targets) (c : Counts) (k : String)
    (tp : Rat) (h : 0 < sumValues c) (hmem : (k, tp) ∈ t)
    (hd : 0 < diffOf c k tp) :
    ∃ e, (k, AnalysisValue.entry e) ∈ calculate_required_uploads t c
      ∧ |(e.next_upload_count : Rat) - diffOf c k tp| ≤ 1/2
      ∧ (|(e.next_upload_count : Rat) - diffOf c k tp| = 1/2 →
          e.next_upload_count % 2 = 0)
      ∧ (∃ m : Int, e.required = (m : Rat) / 100)
      ∧ |e.required - required_countOf tp (sumValues c)| ≤ 1/200
      ∧ (∃ m : Int, e.current_percent = (m : Rat) / 10)
      ∧ |e.current_percent
          - ((lookupD c k 0 : Int) : Rat) / (sumValues c : Rat) * 100| ≤ 1/20
      ∧ e.target_percent = tp
      ∧ e.current = lookupD c k 0 := by
  refine ⟨analysis_entry c (current_percentages t c (sumValues c)) k tp,
    (mem_calculate_required_uploads h.ne').2 ⟨tp, hmem, hd, rfl⟩,
    ?_, ?_, ?_, ?_, ?_, ?_, rfl, rfl⟩
  · exact round_half_even_abs_le _
  · exact round_half_even_tie_even _
  · simpa [analysis_entry] using
      (show ∃ m : Int, py_round 2 (required_countOf tp (sumValues c))
          = (m : Rat) / 100 by
        obtain ⟨m, hm⟩ := py_round_scaled_int 2 (required_countOf tp (sumValues c))
        exact ⟨m, by rw [hm]; norm_num⟩)
  · simpa [analysis_entry] using
      (show |py_round 2 (required_countOf tp (sumValues c))
          - required_countOf tp (sumValues c)| ≤ 1/200 by
        have := py_round_abs_le 2 (required_countOf tp (sumValues c))
        norm_num at this
        exact this)
  · have hk : containsKey t k = true := containsKey_of_mem hmem
    obtain ⟨m, hm⟩ := py_round_scaled_int 1
      (lookupD (current_percentages t c (sumValues c)) k 0)
    exact ⟨m, by simp only [analysis_entry]; rw [hm]; norm_num⟩
  · have hk : containsKey t k = true := containsKey_of_mem hmem
    have hpct := lookupD_current_percentages t c (sumValues c) k hk
    have := py_round_abs_le 1
      (lookupD (current_percentages t c (sumValues c)) k 0)
    rw [hpct] at this
    norm_num at this
    simp only [analysis_entry]
    rw [hpct]
    exact this

theorem C5_witness :
    ∃ e, ("a", AnalysisValue.entry e)
        ∈ calculate_required_uploads [("a", 50), ("b", 50)] [("a", 1), ("b", 3)]
      ∧ |(e.next_upload_count : Rat) - diffOf [("a", 1), ("b", 3)] "a" 50| ≤ 1/2
      ∧ (|(e.next_upload_count : Rat) - diffOf [("a", 1), ("b", 3)] "a" 50| = 1/2 →
          e.next_upload_count % 2 = 0)
      ∧ (∃ m : Int, e.required = (m : Rat) / 100)
      ∧ |e.required - required_countOf 50 (sumValues [("a", 1), ("b", 3)])| ≤ 1/200
      ∧ (∃ m : Int, e.current_percent = (m : Rat) / 10)
      ∧ |e.current_percent
          - ((lookupD [("a", 1), ("b", 3)] "a" 0 : Int) : Rat)
            / (sumValues [("a", 1), ("b", 3)] : Rat) * 100| ≤ 1/20
      ∧ e.target_percent = 50
      ∧ e.current = lookupD [("a", 1), ("b", 3)] "a" 0 :=
  C5_rounding_of_entry_fields [("a", 50), ("b", 50)] [("a", 1), ("b", 3)]
    "a" 50 (by norm_num [sumValues]) (by simp)
    (by norm_num [diffOf, required_countOf, sumValues, lookupD, lookupOpt])

/-- C6: on counts `{rings: 10, pendants: 10, earrings: 10, bracelets: 10}`
and targets `{rings: 40, pendants: 25, earrings: 20, bracelets: 15}`,
`calculate_required_uploads` returns exactly one entry, for rings, with
current 10, required 16.0, upload count 6, current percent 25.0, target
percent 40, and `is_ratio_balanced` at the default tolerance 5.0 returns
false on that result. -/
theorem C6_scenario_two :
    calculate_required_uploads
        [("rings", 40), ("pendants", 25), ("earrings", 20), ("bracelets", 15)]
        [("rings", 10), ("pendants", 10), ("earrings", 10), ("bracelets", 10)]
      = [("rings", AnalysisValue.entry
          { current := 10, required := 16, next_upload_count := 6,
            current_percent := 25, target_percent := 40 })]
    ∧ is_ratio_balanced
        [("rings", AnalysisValue.entry
          { current := 10, required := 16, next_upload_count := 6,
            current_percent := 25, target_percent := 40 })] default_tolerance
      = some false := by
  constructor
  · norm_num [calculate_required_uploads, current_percentages, sumValues,
      lookupD, lookupOpt, containsKey, diffOf, required_countOf, analysis_entry,
      py_round, round_half_even, List.filterMap_cons]
  · norm_num [is_ratio_balanced, default_tolerance]

/-- C7: a category present in `target_ratios` but absent from
`current_counts` is treated as count 0: extending the counts dict with an
explicit `(k, 0)` binding leaves the result unchanged. -/
theorem C7_missing_category_is_zero (t : Targets) (c : Counts) (k : String)
    (_h1 : containsKey t k = true) (_h2 : containsKey c k = false) :
    calculate_required_uploads t (c ++ [(k, 0)])
      = calculate_required_uploads t c := by
  have hsum := sumValues_append_zero c k
  simp only [calculate_required_uploads, hsum]
  by_cases h0 : sumValues c = 0
  · simp [h0]
  · simp only [h0, if_false]
    have hfun : (fun p : String × Rat =>
        if 0 < diffOf (c ++ [(k, 0)]) p.1 p.2 then
          some (p.1, AnalysisValue.entry
            (analysis_entry (c ++ [(k, 0)])
              (current_percentages t (c ++ [(k, 0)]) (sumValues c)) p.1 p.2))
        else none)
        = (fun p : String × Rat =>
          if 0 < diffOf c p.1 p.2 then
            some (p.1, AnalysisValue.entry
              (analysis_entry c (current_percentages t c (sumValues c)) p.1 p.2))
          else none) := by
      funext p
      have hent : analysis_entry (c ++ [(k, 0)])
          (current_percentages t (c ++ [(k, 0)]) (sumValues c)) p.1 p.2
          = analysis_entry c (current_percentages t c (sumValues c)) p.1 p.2 := by
        simp only [analysis_entry, sumValues_append_zero, diffOf_append_zero,
          lookupD_append_default, current_percentages_append_zero]
      rw [diffOf_append_zero, hent]
    rw [hfun]

theorem C7_witness :
    calculate_required_uploads [("rings", 40)] ([("x", 10)] ++ [("rings", 0)])
      = calculate_required_uploads [("rings", 40)] [("x", 10)] :=
  C7_missing_category_is_zero [("rings", 40)] [("x", 10)] "rings"
    (by simp [containsKey, lookupOpt]) (by simp [containsKey, lookupOpt])

/-- C8: a `calculate_required_uploads` call is deterministic and
stateless: repeating the call with the object and argument returned by a
first call yields the same analysis, and neither the object (its
`target_ratios`) nor the counts argument is mutated. -/
theorem C8_deterministic_stateless (rc : RatioCalculator) (cc : Counts) :
    ((rc.call_calculate_required_uploads cc).2.1.call_calculate_required_uploads
        (rc.call_calculate_required_uploads cc).2.2).1
      = (rc.call_calculate_required_uploads cc).1
    ∧ (rc.call_calculate_required_uploads cc).2.1 = rc
    ∧ (rc.call_calculate_required_uploads cc).2.2 = cc :=
  ⟨rfl, rfl, rfl⟩

/-- C9: success and error results are discriminated by the key `"error"`:
when no target category is named `"error"` and the total is nonzero, the
result never contains the key `"error"`, so the orchestrator's
`'error' in analysis` check is correct; but when targets contain a
category literally named `"error"` with a positive shortfall (targets
`{error: 50, a: 50}`, counts `{a: 10}`), the success result does contain
the key `"error"` (bound to an entry, not to the error message), so the
check misclassifies it. -/
theorem C9_error_key_discrimination :
    (∀ (t : Targets) (c : Counts), sumValues c ≠ 0 →
      "error" ∉ t.map Prod.fst →
      "error" ∉ (calculate_required_uploads t c).map Prod.fst)
    ∧ "error" ∈ (calculate_required_uploads [("error", 50), ("a", 50)]
        [("a", 10)]).map Prod.fst
    ∧ ∀ msg, ("error", AnalysisValue.errMsg msg)
        ∉ calculate_required_uploads [("error", 50), ("a", 50)] [("a", 10)] := by
  have hcalc : calculate_required_uploads [("error", (50 : Rat)), ("a", 50)]
      [("a", (10 : Int))]
      = [("error", AnalysisValue.entry
          { current := 0, required := 5, next_upload_count := 5,
            current_percent := 0, target_percent := 50 })] := by
    norm_num [calculate_required_uploads, current_percentages, sumValues,
      lookupD, lookupOpt, containsKey, diffOf, required_countOf, analysis_entry,
      py_round, round_half_even, List.filterMap_cons] <;> simp
  refine ⟨fun t c h ht hk => ht (keys_calculate_required_uploads_subset h hk),
    ?_, ?_⟩
  · rw [hcalc]; simp
  · intro msg
    rw [hcalc]; simp

theorem C9_witness :
    "error" ∉ (calculate_required_uploads [("a", (100 : Rat))]
      [("a", (10 : Int))]).map Prod.fst :=
  C9_error_key_discrimination.1 [("a", 100)] [("a", 10)]
    (by norm_num [sumValues]) (by simp)

/-- C10: `get_recommendations` succeeds on any result of
`calculate_required_uploads` with nonzero total and returns exactly the
lines obtained by traversing the analysis dict in order, formatting each
entry with `next_upload_count > 0` and skipping the rest; and the analysis
dict itself lists exactly the positive-diff categories in the key order of
`target_ratios`. -/
theorem C10_recommendations_order (t : Targets) (c : Counts)
    (h : sumValues c ≠ 0) :
    get_recommendations (calculate_required_uploads t c)
      = some ((calculate_required_uploads t c).filterMap recommendation_of)
    ∧ (calculate_required_uploads t c).map Prod.fst
      = (t.filter fun p => decide (0 < diffOf c p.1 p.2)).map Prod.fst :=
  ⟨get_recommendations_of_success (calculate_required_uploads_success h),
   keys_calculate_required_uploads h⟩

theorem C10_witness :
    get_recommendations (calculate_required_uploads [("a", (50 : Rat)), ("b", 50)]
        [("a", (1 : Int)), ("b", 3)])
      = some ((calculate_required_uploads [("a", (50 : Rat)), ("b", 50)]
          [("a", (1 : Int)), ("b", 3)]).filterMap recommendation_of)
    ∧ (calculate_required_uploads [("a", (50 : Rat)), ("b", 50)]
        [("a", (1 : Int)), ("b", 3)]).map Prod.fst
      = (([("a", (50 : Rat)), ("b", 50)] : Targets).filter fun p =>
          decide (0 < diffOf [("a", (1 : Int)), ("b", 3)] p.1 p.2)).map Prod.fst :=
  C10_recommendations_order [("a", 50), ("b", 50)] [("a", 1), ("b", 3)]
    (by norm_num [sumValues])

end InventoryPacer
